import Mathlib

/-!
Verification of the Albion DPS meter's streaming correlation engine.

The Python modules under albion_dps are shallowly embedded here:
Python dict becomes an insertion-ordered association list, Python set
becomes an insertion-ordered duplicate-free list, float timestamps and
amounts become rationals, and every stateful method becomes a pure
function from the old state to the new state (methods with a result
return a pair).  Effects on the session meter performed by the pipeline
are recorded as an explicit action trace.
-/

set_option allowUnsafeReducibility true

attribute [semireducible] Rat.add Rat.sub Rat.mul Rat.neg Rat.div Rat.inv

namespace AlbionDps

/-- Result of a Python dict lookup: d.get(k). -/
def dget? {α : Type} : List (Int × α) → Int → Option α
  | [], _ => none
  | (a, b) :: rest, k => if a = k then some b else dget? rest k

/-- Python dict assignment d[k] = v: update the existing binding in place,
else append (dicts keep insertion order and hold each key once). -/
def dset {α : Type} : List (Int × α) → Int → α → List (Int × α)
  | [], k, v => [(k, v)]
  | (a, b) :: rest, k, v =>
    if a = k then (k, v) :: rest else (a, b) :: dset rest k v

/-- Python dict d.pop(k, None): drop the binding of k, if any. -/
def dremove {α : Type} (xs : List (Int × α)) (k : Int) : List (Int × α) :=
  xs.filter (fun kv => kv.1 ≠ k)

/-- Removal of several keys at once (a sequence of d.pop calls over distinct
keys). -/
def dremoveAll {α : Type} (xs : List (Int × α)) (ks : List Int) : List (Int × α) :=
  xs.filter (fun kv => kv.1 ∉ ks)

/-- String-keyed dict lookup. -/
def sget? {α : Type} : List (String × α) → String → Option α
  | [], _ => none
  | (a, b) :: rest, k => if a = k then some b else sget? rest k

/-- String-keyed dict assignment. -/
def sset {α : Type} : List (String × α) → String → α → List (String × α)
  | [], k, v => [(k, v)]
  | (a, b) :: rest, k, v =>
    if a = k then (k, v) :: rest else (a, b) :: sset rest k v

/-- Python set s.add(x): insert if absent, keeping first-insertion order. -/
def sinsert (xs : List Int) (x : Int) : List Int :=
  if x ∈ xs then xs else xs ++ [x]

/-- Python set union update s.update(ys). -/
def sunion (xs ys : List Int) : List Int :=
  ys.foldl sinsert xs

/-- Python set s.difference_update(ys). -/
def sdiff (xs ys : List Int) : List Int :=
  xs.filter (fun x => x ∉ ys)

/-- Python set s.intersection_update(ys). -/
def sinter (xs ys : List Int) : List Int :=
  xs.filter (fun x => x ∈ ys)

/-- String set insert. -/
def strInsert (xs : List String) (x : String) : List String :=
  if x ∈ xs then xs else xs ++ [x]

/-- Truthiness of an optional Python string: None and the empty string are
falsy. -/
def strTruthy : Option String → Bool
  | none => false
  | some s => s ≠ ""

/-- CombatEvent from albion_dps.models (models.py is outside src; the field
list is fixed by its uses in pipeline.py and session_meter.py): timestamp,
source id, target id, kind ("damage" or "heal"), non-negative amount. -/
structure CombatEvent where
  timestamp : ℚ
  source_id : Int
  target_id : Int
  kind : String
  amount : ℚ
deriving DecidableEq, Repr

/-- RawPacket from albion_dps.models: one captured UDP datagram.  Only the
payload length is consulted by the code modelled here, so the payload is
carried as its length. -/
structure RawPacket where
  timestamp : ℚ
  src_ip : String
  src_port : Int
  dst_ip : String
  dst_port : Int
  payload_len : Nat
deriving DecidableEq, Repr

/-! ## Name registry (albion_dps/domain/name_registry.py)

Only the state reachable through record, record_weak and lookup is needed by
the claims; guid bindings are carried so that lookup keeps its two-step
fall-through.  The guid branches of the internal store helper are
unreachable when the arguments are an int id and a nonempty string name, as
they are for record and record_weak, so store models the first branch. -/

structure NameRegistry where
  names : List (Int × String) := []
  guid_names : List (List Nat × String) := []
  id_guids : List (Int × List Nat) := []
  strong_name_ids : List (String × List Int) := []
  weak_name_ids : List (String × List Int) := []
  strong_id_names : List (Int × String) := []
deriving DecidableEq, Repr

namespace NameRegistry

/-- Continuation of the weak store branch after the strong-id check: the
strong-ids-of-name check, then the weak-set insert and the active-map
write. -/
def storeWeakChecked (s : NameRegistry) (entity_id : Int) (name : String) : NameRegistry :=
  let strong_ids := (sget? s.strong_name_ids name).getD []
  if strong_ids ≠ [] ∧ entity_id ∉ strong_ids then s
  else
    { s with
      weak_name_ids :=
        sset s.weak_name_ids name (sinsert ((sget? s.weak_name_ids name).getD []) entity_id)
      names := dset s.names entity_id name }

/-- Weak branch of the internal store helper (name_registry.py lines
138-145): a weak binding is discarded when the id already holds a strong
binding to a different name, or when the name is already strongly bound to
other ids only. -/
def storeWeak (s : NameRegistry) (entity_id : Int) (name : String) : NameRegistry :=
  match dget? s.strong_id_names entity_id with
  | some strong_name =>
    if strong_name ≠ name then s
    else storeWeakChecked s entity_id name
  | none => storeWeakChecked s entity_id name

/-- Strong branch of the internal store helper (name_registry.py lines
146-158).  The Python loop pops from the active map every weak id of this
name that is not in the (just-extended) strong set and whose active name
equals this name; over distinct keys that loop is the filter written here. -/
def storeStrong (s : NameRegistry) (entity_id : Int) (name : String) : NameRegistry :=
  let strong_ids := sinsert ((sget? s.strong_name_ids name).getD []) entity_id
  let weak_ids := (sget? s.weak_name_ids name).getD []
  let names1 := s.names.filter (fun kv =>
    ¬(kv.1 ∈ weak_ids ∧ kv.1 ∉ strong_ids ∧ kv.2 = name))
  { s with
    strong_name_ids := sset s.strong_name_ids name strong_ids
    strong_id_names := dset s.strong_id_names entity_id name
    weak_name_ids :=
      if weak_ids = [] then s.weak_name_ids
      else sset s.weak_name_ids name (sinter weak_ids strong_ids)
    names := dset names1 entity_id name }

/-- Internal store helper restricted to an int id and a string name
(name_registry.py lines 136-164); an empty name is falsy in Python, so
nothing happens. -/
def store (s : NameRegistry) (entity_id : Int) (name : String) (weak : Bool) : NameRegistry :=
  if name = "" then s
  else if weak then storeWeak s entity_id name
  else storeStrong s entity_id name

/-- NameRegistry.record: create a strong binding. -/
def record (s : NameRegistry) (entity_id : Int) (name : String) : NameRegistry :=
  store s entity_id name false

/-- NameRegistry.record_weak: create a weak binding. -/
def recordWeak (s : NameRegistry) (entity_id : Int) (name : String) : NameRegistry :=
  store s entity_id name true

/-- NameRegistry.lookup: direct id-to-name map first, then the guid
indirection. -/
def lookup (s : NameRegistry) (entity_id : Int) : Option String :=
  match dget? s.names entity_id with
  | some name => some name
  | none =>
    match dget? s.id_guids entity_id with
    | none => none
    | some guid => (s.guid_names.find? (fun kv => kv.1 == guid)).map (·.2)

end NameRegistry

/-! ## Party registry (albion_dps/domain/party_registry.py)

Constants from the top of the module.  Scores and timestamps are rationals;
the Python floats involved only ever add halves and compare, which is exact.
Deques with a maxlen drop from the left when full. -/

def SERVER_PORTS : List Int := [5055, 5056, 5058]

def ZONE_PORTS : List Int := [5056, 5058]

def TARGET_SELF_NAME_WINDOW_SECONDS : ℚ := 60

def SELF_ID_CANDIDATE_TTL_SECONDS : ℚ := 15

def SELF_ID_CORRELATION_WINDOW_SECONDS : ℚ := 3 / 4

def SELF_ID_MIN_SCORE : ℚ := 1

def SELF_ID_MIN_SCORE_GAP : ℚ := 1

def TARGET_LINK_WINDOW_SECONDS : ℚ := 2

/-- Append to a deque with maxlen m: drop from the left when full. -/
def pushMax {α : Type} (m : Nat) (xs : List α) (x : α) : List α :=
  let ys := xs ++ [x]
  if ys.length > m then ys.drop (ys.length - m) else ys

/-- PartyRegistry state (party_registry.py lines 48-75).  Python sets are
insertion-ordered duplicate-free lists here; dict fields are association
lists. -/
structure PartyRegistry where
  strict : Bool := true
  party_names : List String := []
  party_ids : List Int := []
  resolved_party_names : List String := []
  party_roster_candidates : List Int := []
  party_roster_self_seen : Bool := false
  combat_ids_seen : List Int := []
  target_ids : List Int := []
  self_ids : List Int := []
  primary_self_id : Option Int := none
  self_name : Option String := none
  self_name_confirmed : Bool := false
  recent_target_ids : List (ℚ × Int) := []
  recent_outbound_ts : List ℚ := []
  target_request_ts : List (Int × ℚ) := []
  self_candidate_scores : List (Int × ℚ) := []
  self_candidate_last_ts : List (Int × ℚ) := []
  self_candidate_link_hits : List (Int × Nat) := []
  self_candidate_combat_hits : List (Int × Nat) := []
  recent_target_links : List (ℚ × Int × Int) := []
  last_packet_fingerprint : Option (ℚ × String × Int × String × Int × Nat) := none
  zone_key : Option (String × Int) := none
deriving DecidableEq, Repr

/-- Module-level helper _infer_zone_key: the endpoint on a zone port. -/
def inferZoneKey (p : RawPacket) : Option (String × Int) :=
  if p.src_port ∈ ZONE_PORTS then some (p.src_ip, p.src_port)
  else if p.dst_port ∈ ZONE_PORTS then some (p.dst_ip, p.dst_port)
  else none

/-- Module-level helper _prune_deque: pop from the front while older than the
window. -/
def pruneFront (cutoff : ℚ) (xs : List ℚ) : List ℚ :=
  xs.dropWhile (fun ts => ts < cutoff)

/-- Module-level helper _prune_deque_pairs. -/
def pruneFrontPairs (cutoff : ℚ) (xs : List (ℚ × Int)) : List (ℚ × Int) :=
  xs.dropWhile (fun tv => tv.1 < cutoff)

/-- Module-level helper _prune_deque_triples. -/
def pruneFrontTriples (cutoff : ℚ) (xs : List (ℚ × Int × Int)) : List (ℚ × Int × Int) :=
  xs.dropWhile (fun tv => tv.1 < cutoff)

/-- Loop body of _has_outbound_correlation over the reversed outbound list:
skip timestamps after the event; the first one at or before it decides. -/
def outboundCorrelationGo (event_ts : ℚ) : List ℚ → Bool
  | [] => false
  | ts :: rest =>
    if ts > event_ts then outboundCorrelationGo event_ts rest
    else decide (event_ts - ts ≤ SELF_ID_CORRELATION_WINDOW_SECONDS)

/-- Module-level helper _has_outbound_correlation: walk the outbound
timestamps from the most recent, skip the ones after the event, and check
the first one at or before it against the correlation window. -/
def hasOutboundCorrelation (outbound_ts : List ℚ) (event_ts : ℚ) : Bool :=
  outboundCorrelationGo event_ts outbound_ts.reverse

namespace PartyRegistry

/-- Packet fingerprint used for de-duplication (timestamp, endpoints, payload
length). -/
def fingerprintOf (p : RawPacket) : ℚ × String × Int × String × Int × Nat :=
  (p.timestamp, p.src_ip, p.src_port, p.dst_ip, p.dst_port, p.payload_len)

/-- PartyRegistry._update_zone_key (party_registry.py lines 439-461): adopt
the first zone key, and on a change of zone endpoint clear all per-zone
state. -/
def updateZoneKey (s : PartyRegistry) (p : RawPacket) : PartyRegistry :=
  match inferZoneKey p with
  | none => s
  | some zk =>
    match s.zone_key with
    | none => { s with zone_key := some zk }
    | some zk0 =>
      if zk = zk0 then s
      else
        { s with
          zone_key := some zk
          target_ids := []
          recent_target_ids := []
          recent_outbound_ts := []
          target_request_ts := []
          self_candidate_scores := []
          self_candidate_last_ts := []
          self_candidate_link_hits := []
          self_candidate_combat_hits := []
          party_ids := sdiff s.party_ids s.self_ids
          self_ids := []
          primary_self_id := none
          party_roster_candidates := []
          party_roster_self_seen := false
          combat_ids_seen := [] }

/-- Body of PartyRegistry._prune_candidate_scores with the reference time
fixed: drop from all four candidate tables every candidate whose last update
is older than the TTL. -/
def pruneCandidatesAt (s : PartyRegistry) (now : ℚ) : PartyRegistry :=
  let cutoff := now - SELF_ID_CANDIDATE_TTL_SECONDS
  let stale := (s.self_candidate_last_ts.filter (fun kv => kv.2 < cutoff)).map (·.1)
  { s with
    self_candidate_last_ts := dremoveAll s.self_candidate_last_ts stale
    self_candidate_scores := dremoveAll s.self_candidate_scores stale
    self_candidate_link_hits := dremoveAll s.self_candidate_link_hits stale
    self_candidate_combat_hits := dremoveAll s.self_candidate_combat_hits stale }

/-- PartyRegistry._prune_candidate_scores (lines 411-423): with no explicit
now the newest last-update stands in, and an empty table is left alone. -/
def pruneCandidateScores (s : PartyRegistry) (now? : Option ℚ) : PartyRegistry :=
  match now?, s.self_candidate_last_ts with
  | none, [] => s
  | none, t :: ts => pruneCandidatesAt s (List.foldl (fun acc kv => max acc kv.2) t.2 ts)
  | some now, _ => pruneCandidatesAt s now

/-- PartyRegistry.observe_packet (lines 125-144): record the fingerprint,
track the zone key, remember outbound zone-port packets, and prune every
recency buffer. -/
def observePacket (s : PartyRegistry) (p : RawPacket) : PartyRegistry :=
  let s1 := { s with last_packet_fingerprint := some (fingerprintOf p) }
  let s2 := updateZoneKey s1 p
  let s3 :=
    if p.dst_port ∈ ZONE_PORTS ∧ p.src_port ∉ SERVER_PORTS then
      { s2 with recent_outbound_ts := pushMax 500 s2.recent_outbound_ts p.timestamp }
    else s2
  let s4 :=
    { s3 with
      recent_outbound_ts :=
        pruneFront (p.timestamp - SELF_ID_CANDIDATE_TTL_SECONDS) s3.recent_outbound_ts
      recent_target_ids :=
        pruneFrontPairs (p.timestamp - TARGET_SELF_NAME_WINDOW_SECONDS) s3.recent_target_ids
      recent_target_links :=
        pruneFrontTriples (p.timestamp - TARGET_LINK_WINDOW_SECONDS) s3.recent_target_links }
  let s5 := pruneCandidateScores s4 (some p.timestamp)
  { s5 with
    target_request_ts :=
      s5.target_request_ts.filter
        (fun kv => ¬(kv.2 < p.timestamp - SELF_ID_CANDIDATE_TTL_SECONDS)) }

/-- PartyRegistry._observe_packet_once (lines 425-437): skip a packet whose
fingerprint equals the remembered one, else record it and observe it. -/
def observePacketOnce (s : PartyRegistry) (p : RawPacket) : PartyRegistry :=
  if s.last_packet_fingerprint = some (fingerprintOf p) then s
  else observePacket { s with last_packet_fingerprint := some (fingerprintOf p) } p

/-- PartyRegistry._add_self_candidate_score (lines 404-409). -/
def addSelfCandidateScore (s : PartyRegistry) (candidate_id : Int) (ts : ℚ)
    (weight : ℚ) : PartyRegistry :=
  { s with
    self_candidate_scores :=
      dset s.self_candidate_scores candidate_id
        (((dget? s.self_candidate_scores candidate_id).getD 0) + weight)
    self_candidate_last_ts := dset s.self_candidate_last_ts candidate_id ts }

/-- PartyRegistry.observe_combat_event (lines 146-159): score the source of a
combat event whose target was recently requested, provided an outbound
zone-port packet correlates with the event time. -/
def observeCombatEvent (s : PartyRegistry) (e : CombatEvent) : PartyRegistry :=
  if s.primary_self_id ≠ none then s
  else
    match dget? s.target_request_ts e.target_id with
    | none => s
    | some _ =>
      if ¬hasOutboundCorrelation s.recent_outbound_ts e.timestamp then s
      else
        let s1 := addSelfCandidateScore s e.source_id e.timestamp 1
        { s1 with
          self_candidate_combat_hits :=
            dset s1.self_candidate_combat_hits e.source_id
              (((dget? s1.self_candidate_combat_hits e.source_id).getD 0) + 1) }

/-- PartyRegistry._promote_roster_candidates (lines 394-402). -/
def promoteRosterCandidates (s : PartyRegistry) : PartyRegistry :=
  if s.party_roster_candidates = [] then s
  else
    let seen :=
      if ¬s.party_roster_self_seen ∧ s.self_ids ≠ [] then
        s.party_roster_candidates.any (fun i => i ∈ s.self_ids) || s.party_roster_self_seen
      else s.party_roster_self_seen
    if ¬seen then { s with party_roster_self_seen := seen }
    else
      { s with
        party_roster_self_seen := seen
        party_ids := sunion s.party_ids s.party_roster_candidates }

/-- PartyRegistry._accept_self_id_candidate (lines 375-392): set the primary
self id at most once; a repeat of the same id only refreshes the sets. -/
def acceptSelfIdCandidate (s : PartyRegistry) (candidate_id : Int) : PartyRegistry :=
  match s.primary_self_id with
  | none =>
    let s1 :=
      { s with
        primary_self_id := some candidate_id
        self_ids := sinsert s.self_ids candidate_id
        party_ids := sinsert s.party_ids candidate_id }
    let s2 :=
      if candidate_id ∈ s1.party_roster_candidates then
        { s1 with party_roster_self_seen := true }
      else s1
    promoteRosterCandidates s2
  | some pid =>
    if candidate_id ≠ pid then s
    else
      let s1 :=
        { s with
          self_ids := sinsert s.self_ids candidate_id
          party_ids := sinsert s.party_ids candidate_id }
      let s2 :=
        if candidate_id ∈ s1.party_roster_candidates then
          { s1 with party_roster_self_seen := true }
        else s1
      promoteRosterCandidates s2

/-- First element of the scores table attaining the maximal score, the way
Python max with a key function keeps the first maximum. -/
def maxScoreEntry (hd : Int × ℚ) (tl : List (Int × ℚ)) : Int × ℚ :=
  tl.foldl (fun acc kv => if kv.2 > acc.2 then kv else acc) hd

/-- Largest score among the candidates other than the given one; Python max
with a default returns the default only when the sequence is empty. -/
def secondScore (scores : List (Int × ℚ)) (best : Int) : ℚ :=
  match (scores.filter (fun kv => kv.1 ≠ best)).map (·.2) with
  | [] => 0
  | x :: xs => xs.foldl max x

/-- Candidates whose resolved name equals the confirmed self name
(party_registry.py lines 173-177). -/
def selfNameMatches (s : PartyRegistry) (reg : NameRegistry) : List Int :=
  (s.self_candidate_scores.map (·.1)).filter
    (fun entity_id => reg.lookup entity_id = s.self_name)

/-- Guard of the confirmed-self-name short circuit in try_resolve_self_id
(party_registry.py lines 168-178): a name registry is supplied, the self
name is confirmed and truthy, and exactly one candidate resolves to it. -/
def selfNameShortCircuitB (s : PartyRegistry) (reg? : Option NameRegistry) : Bool :=
  match reg? with
  | none => false
  | some reg => s.self_name_confirmed && strTruthy s.self_name &&
      ((selfNameMatches s reg).length = 1 : Bool)

/-- PartyRegistry.try_resolve_self_id (lines 161-194): prune, then either the
confirmed-self-name short circuit (which swallows the attempt whenever it
finds exactly one matching candidate) or the score threshold rule. -/
def tryResolveSelfId (s : PartyRegistry) (reg? : Option NameRegistry) : PartyRegistry :=
  if s.primary_self_id ≠ none then s
  else
    let s1 := pruneCandidateScores s none
    match s1.self_candidate_scores with
    | [] => s1
    | hd :: tl =>
      if selfNameShortCircuitB s1 reg? then
        match reg? with
        | none => s1
        | some reg =>
          match selfNameMatches s1 reg with
          | [m] =>
            if ((dget? s1.self_candidate_link_hits m).getD 0 > 0) ∧
                ((dget? s1.self_candidate_combat_hits m).getD 0 > 0) then
              acceptSelfIdCandidate s1 m
            else s1
          | _ => s1
      else
        let best := maxScoreEntry hd tl
        let second := secondScore (hd :: tl) best.1
        if best.2 ≥ SELF_ID_MIN_SCORE ∧ best.2 - second ≥ SELF_ID_MIN_SCORE_GAP then
          if (dget? s1.self_candidate_combat_hits best.1).getD 0 ≤ 0 then s1
          else acceptSelfIdCandidate s1 best.1
        else s1

/-- PartyRegistry.has_ids (lines 236-239). -/
def hasIds (s : PartyRegistry) : Bool :=
  if s.strict then s.self_ids ≠ [] else s.party_ids ≠ []

/-- PartyRegistry.has_unresolved_names (lines 241-244). -/
def hasUnresolvedNames (s : PartyRegistry) : Bool :=
  if s.party_names = [] then false
  else s.party_names.any (fun n => n ∉ s.resolved_party_names)

/-- Decision part of PartyRegistry.allows (lines 310-323); the method also
records the queried id, which allowsRecord performs. -/
def allowsDecision (s : PartyRegistry) (source_id : Int)
    (reg? : Option NameRegistry) : Bool :=
  if s.strict then
    if s.self_ids = [] then false
    else source_id ∈ s.party_ids || source_id ∈ s.self_ids
  else if s.party_ids ≠ [] then source_id ∈ s.party_ids
  else if s.party_names = [] then true
  else
    match reg? with
    | none => true
    | some reg =>
      match reg.lookup source_id with
      | none => false
      | some name => name ∈ s.party_names

/-- PartyRegistry.allows with its state effect: every queried id is added to
combat_ids_seen before the decision. -/
def allowsRecord (s : PartyRegistry) (source_id : Int)
    (reg? : Option NameRegistry) : Bool × PartyRegistry :=
  let s1 := { s with combat_ids_seen := sinsert s.combat_ids_seen source_id }
  (allowsDecision s1 source_id reg?, s1)

end PartyRegistry

/-! ## Rolling meter and session meter (albion_dps/meter/session_meter.py)

The RollingMeter class lives in albion_dps/meter/aggregate.py, which is not
under src; it is modelled from the spec below.  SessionMeter is translated
from session_meter.py. -/

/-- Per-source totals of a snapshot: running damage and heal plus windowed
dps and hps. -/
structure SourceTotals where
  damage : ℚ
  heal : ℚ
  dps : ℚ
  hps : ℚ
deriving DecidableEq, Repr

/-- MeterSnapshot from albion_dps.models: a timestamp and per-source
totals. -/
structure MeterSnapshot where
  timestamp : ℚ
  totals : List (Int × SourceTotals)
deriving DecidableEq, Repr

/-- Modelled from the spec: RollingMeter (albion_dps/meter/aggregate.py is
absent from src).  Spec 4.5: a per-source bounded ring of (timestamp, kind,
amount) for the last 10 seconds, with running lifetime damage and heal per
source; snapshot(now) reports the lifetime totals and the windowed sums
divided by the window. -/
structure RollingMeter where
  window_seconds : ℚ := 10
  events : List (ℚ × Int × String × ℚ) := []
  totals : List (Int × ℚ × ℚ) := []
deriving DecidableEq, Repr

namespace RollingMeter

/-- Modelled from the spec: drop ring entries older than the window. -/
def evict (m : RollingMeter) (now : ℚ) : RollingMeter :=
  { m with events := m.events.filter (fun ev => ev.1 ≥ now - m.window_seconds) }

/-- Modelled from the spec: add the event to the lifetime totals and the
ring, evicting entries older than the window behind the event. -/
def push (m : RollingMeter) (e : CombatEvent) : RollingMeter :=
  let dh := (dget? m.totals e.source_id).getD (0, 0)
  let totals1 :=
    if e.kind = "damage" then dset m.totals e.source_id (dh.1 + e.amount, dh.2)
    else dset m.totals e.source_id (dh.1, dh.2 + e.amount)
  evict
    { m with
      totals := totals1
      events := m.events ++ [(e.timestamp, e.source_id, e.kind, e.amount)] }
    e.timestamp

/-- Modelled from the spec: advance the window clock without an event. -/
def touch (m : RollingMeter) (now : ℚ) : RollingMeter :=
  evict m now

/-- Modelled from the spec: snapshot at a given time. -/
def snapshot (m : RollingMeter) (now : ℚ) : MeterSnapshot :=
  { timestamp := now
    totals := m.totals.map (fun src_dh =>
      let src := src_dh.1
      let windowed := m.events.filter
        (fun ev => ev.2.1 = src ∧ ev.1 ≥ now - m.window_seconds)
      let wd := ((windowed.filter (fun ev => ev.2.2.1 = "damage")).map (·.2.2.2)).sum
      let wh := ((windowed.filter (fun ev => ev.2.2.1 ≠ "damage")).map (·.2.2.2)).sum
      (src,
        { damage := src_dh.2.1, heal := src_dh.2.2
          dps := wd / m.window_seconds, hps := wh / m.window_seconds })) }

end RollingMeter

def COMBAT_END_GRACE_SECONDS : ℚ := 1 / 4

/-- SessionEntry (session_meter.py lines 14-20). -/
structure SessionEntry where
  label : String
  damage : ℚ
  heal : ℚ
  dps : ℚ
  hps : ℚ
deriving DecidableEq, Repr

/-- SessionSummary (session_meter.py lines 23-33). -/
structure SessionSummary where
  mode : String
  start_ts : ℚ
  end_ts : ℚ
  duration : ℚ
  label : Option String
  entries : List SessionEntry
  total_damage : ℚ
  total_heal : ℚ
  reason : String
deriving DecidableEq, Repr

/-- Stable insertion into a list sorted by the boolean relation le: the new
element goes before the first element it compares at-or-below. -/
def stableInsert {α : Type} (le : α → α → Bool) (x : α) : List α → List α
  | [] => [x]
  | y :: ys => if le x y then x :: y :: ys else y :: stableInsert le x ys

/-- Stable sort by the boolean relation le, the stability contract of the
Python sort builtin. -/
def stableSort {α : Type} (le : α → α → Bool) (xs : List α) : List α :=
  xs.foldr (stableInsert le) []

/-- Resolution of a source id to a display label: the optional name lookup,
falling back to the decimal id when the lookup is missing or falsy. -/
def labelFor (lookup? : Option (Int → Option String)) (src : Int) : String :=
  match lookup? with
  | none => toString src
  | some f =>
    match f src with
    | none => toString src
    | some n => if n = "" then toString src else n

/-- Module-level helper _build_entries_from_grouped (lines 383-404): turn the
label-grouped damage and heal pairs into entries with per-duration rates,
sorted by damage descending (a stable sort). -/
def buildEntriesFromGrouped (grouped : List (String × ℚ × ℚ)) (duration : ℚ) :
    List SessionEntry :=
  let entries := grouped.map (fun g =>
    let dps := if duration > 0 then g.2.1 / duration else 0
    let hps := if duration > 0 then g.2.2 / duration else 0
    SessionEntry.mk g.1 g.2.1 g.2.2 dps hps)
  stableSort (fun a b => a.damage ≥ b.damage) entries

/-- Module-level helper _build_entries (lines 365-380): group snapshot totals
by display label, then build the entry list. -/
def buildEntries (snap : MeterSnapshot) (duration : ℚ)
    (lookup? : Option (Int → Option String)) : List SessionEntry :=
  let grouped := snap.totals.foldl
    (fun acc st =>
      let label := labelFor lookup? st.1
      let dh := (sget? acc label).getD (0, 0)
      sset acc label (dh.1 + st.2.damage, dh.2 + st.2.heal))
    ([] : List (String × ℚ × ℚ))
  buildEntriesFromGrouped grouped duration

/-- Advance an optional timestamp: assign when unset or when the new time is
later (the None-or-greater update used throughout SessionMeter). -/
def bumpTs (old : Option ℚ) (ts : ℚ) : Option ℚ :=
  match old with
  | none => some ts
  | some t => some (max t ts)

/-- SessionMeter state (session_meter.py lines 36-62).  The history dict maps
a mode to its bounded summary list, newest last. -/
structure SessionMeter where
  window_seconds : ℚ := 10
  battle_timeout_seconds : ℚ := 20
  history_limit : Nat := 10
  mode : String := "battle"
  name_lookup : Option (Int → Option String) := none
  history : List (String × List SessionSummary) := [("battle", []), ("zone", []), ("manual", [])]
  meter : RollingMeter := {}
  session_start : Option ℚ := none
  last_event_ts : Option ℚ := none
  last_seen_ts : Option ℚ := none
  active : Bool := false
  manual_active : Bool := false
  zone_key : Option (String × Int) := none
  zone_label : Option String := none
  combatants : List Int := []
  seen_sources : List Int := []
  combat_end_ts : Option ℚ := none
  last_combat_event_ts : Option ℚ := none
  saw_combat_state : Bool := false

namespace SessionMeter

/-- SessionMeter._start_session (lines 310-317). -/
def startSession (s : SessionMeter) (timestamp : ℚ) : SessionMeter :=
  { s with
    meter := { window_seconds := s.window_seconds }
    session_start := some timestamp
    last_event_ts := none
    active := true
    combat_end_ts := none
    last_combat_event_ts := none
    seen_sources := [] }

/-- SessionMeter._end_session (lines 319-362): snapshot the rolling meter at
the end time; with no entries only deactivate, otherwise append the summary
to the bounded per-mode history and clear the per-session state. -/
def endSession (s : SessionMeter) (timestamp : ℚ) (reason : String)
    (labelOverride : Option String) : SessionMeter :=
  if ¬s.active then s
  else
    let start_ts := s.session_start.getD timestamp
    let end_ts := timestamp
    let duration := max (end_ts - start_ts) 0
    let snap := s.meter.snapshot end_ts
    let entries := buildEntries snap duration s.name_lookup
    if entries = [] then
      { s with
        meter := { window_seconds := s.window_seconds }
        session_start := none
        last_event_ts := none
        active := false }
    else
      let total_damage := (entries.map (·.damage)).sum
      let total_heal := (entries.map (·.heal)).sum
      let summary : SessionSummary :=
        { mode := s.mode
          start_ts := start_ts
          end_ts := end_ts
          duration := duration
          label :=
            if s.mode = "zone" then
              match labelOverride with
              | some l => some l
              | none => s.zone_label
            else none
          entries := entries
          total_damage := total_damage
          total_heal := total_heal
          reason := reason }
      let hist := (sget? s.history s.mode).getD []
      { s with
        history := sset s.history s.mode (pushMax s.history_limit hist summary)
        meter := { window_seconds := s.window_seconds }
        session_start := none
        last_event_ts := none
        active := false
        combat_end_ts := none
        combatants := []
        last_combat_event_ts := none
        seen_sources := [] }

/-- SessionMeter.push (lines 163-191): drop when manual mode is idle, start a
session when none is active, advance the event and seen clocks, cancel a
stale combat end, and advance last_combat_event_ts according to the
qualifying-event rule before feeding the rolling meter. -/
def push (s : SessionMeter) (e : CombatEvent) : SessionMeter :=
  if s.mode = "manual" ∧ ¬s.manual_active then s
  else
    let s1 := if ¬s.active then startSession s e.timestamp else s
    let s2 :=
      { s1 with
        last_event_ts := bumpTs s1.last_event_ts e.timestamp
        last_seen_ts := bumpTs s1.last_seen_ts e.timestamp }
    let s3 :=
      match s2.combat_end_ts with
      | some c =>
        if e.timestamp - c > COMBAT_END_GRACE_SECONDS then
          { s2 with combat_end_ts := none }
        else s2
      | none => s2
    let s4 := { s3 with seen_sources := sinsert s3.seen_sources e.source_id }
    let qualifies :=
      e.kind = "damage" ∨ (e.kind = "heal" ∧ e.source_id ≠ e.target_id)
    let s5 :=
      if s4.saw_combat_state then
        if qualifies then
          { s4 with last_combat_event_ts := bumpTs s4.last_combat_event_ts e.timestamp }
        else s4
      else
        { s4 with last_combat_event_ts := bumpTs s4.last_combat_event_ts e.timestamp }
    { s5 with meter := s5.meter.push e }

/-- SessionMeter.observe_combat_state (lines 193-213). -/
def observeCombatState (s : SessionMeter) (entity_id : Int)
    (in_active in_passive : Bool) (timestamp : ℚ) : SessionMeter :=
  if s.mode ≠ "battle" then s
  else if s.seen_sources = [] ∨ entity_id ∉ s.seen_sources then s
  else
    let s1 :=
      { s with
        saw_combat_state := true
        last_seen_ts := bumpTs s.last_seen_ts timestamp }
    if in_active || in_passive then
      let s2 :=
        { s1 with
          combatants := sinsert s1.combatants entity_id
          combat_end_ts := none }
      if ¬s2.active then startSession s2 timestamp else s2
    else
      let s2 := { s1 with combatants := s1.combatants.filter (fun i => i ≠ entity_id) }
      if s2.combatants = [] then { s2 with combat_end_ts := some timestamp } else s2

/-- SessionMeter.observe_packet (lines 117-161): remember the packet time,
track the zone label (ending and restarting zone sessions on change), close a
battle session on idle timeout or on an expired combat-end grace, and let the
rolling meter drop stale window entries. -/
def observePacketM (s : SessionMeter) (p : RawPacket) : SessionMeter :=
  let s0 := { s with last_seen_ts := some p.timestamp }
  let s1 :=
    match inferZoneKey p with
    | none => s0
    | some zk =>
      match s0.zone_key with
      | none =>
        let sA :=
          { s0 with
            zone_key := some zk
            zone_label := some (zk.1 ++ ":" ++ toString zk.2) }
        if sA.mode = "zone" then startSession sA p.timestamp else sA
      | some zk0 =>
        if zk ≠ zk0 then
          let previous_label := s0.zone_label
          let sA :=
            { s0 with
              zone_key := some zk
              zone_label := some (zk.1 ++ ":" ++ toString zk.2) }
          if sA.mode = "zone" then
            let sB := if sA.active then endSession sA p.timestamp "zone_change" previous_label else sA
            startSession sB p.timestamp
          else sA
        else s0
  let s2 :=
    match s1.last_combat_event_ts with
    | some t =>
      if s1.mode = "battle" ∧ s1.active ∧ p.timestamp - t ≥ s1.battle_timeout_seconds then
        endSession s1 p.timestamp "idle" none
      else s1
    | none => s1
  let s3 :=
    match s2.combat_end_ts with
    | some c =>
      if s2.mode = "battle" ∧ s2.active ∧ p.timestamp - c ≥ COMBAT_END_GRACE_SECONDS then
        let end_ts :=
          match s2.last_event_ts with
          | some l => if l > c then l else c
          | none => c
        endSession s2 end_ts "combat_state" none
      else s2
    | none => s2
  if s3.active then { s3 with meter := s3.meter.touch p.timestamp } else s3

end SessionMeter

/-! ## Pipeline orchestrator (albion_dps/pipeline.py)

Effects on the session meter are recorded as an action trace; the result of
the meter's merge_event_into_history call is supplied as an oracle so that
the orchestration order is visible in the trace. -/

def PENDING_MAX_AGE : ℚ := 120

def PENDING_MAX_COUNT : Nat := 2000

/-- Effects that stream_snapshots and _flush_or_trim_pending perform on the
meter, in order. -/
inductive MeterAction where
  | push : CombatEvent → MeterAction
  | mergeAttempt : CombatEvent → MeterAction
  | observeState : Int → Bool → Bool → ℚ → MeterAction
deriving DecidableEq, Repr

/-- Checker for the merge-before-push discipline: every push must follow,
immediately, a merge attempt of the same event that missed. -/
def mergeBeforePushOk : Option CombatEvent → List MeterAction → Bool
  | _, [] => true
  | prev?, MeterAction.push e :: rest =>
    (prev? = some e : Bool) && mergeBeforePushOk none rest
  | _, MeterAction.mergeAttempt e :: rest => mergeBeforePushOk (some e) rest
  | _, MeterAction.observeState _ _ _ _ :: rest => mergeBeforePushOk none rest

/-- Pending combat-state tuple (timestamp, entity, in_active, in_passive). -/
abbrev PendingState := ℚ × Int × Bool × Bool

/-- Python tuple comparison on pending combat states (False sorts before
True). -/
def pendingStateLe (x y : PendingState) : Bool :=
  if x.1 ≠ y.1 then x.1 < y.1
  else if x.2.1 ≠ y.2.1 then x.2.1 < y.2.1
  else if x.2.2.1 ≠ y.2.2.1 then !x.2.2.1 && y.2.2.1
  else if x.2.2.2 ≠ y.2.2.2 then !x.2.2.2 && y.2.2.2
  else true

/-- Result of processing one mapped combat event or one flush of the pending
queues: the party registry, the pending queues and the recorded meter
actions. -/
structure PipeStep where
  party : Option PartyRegistry
  pending : List CombatEvent
  pendingStates : List PendingState
  actions : List MeterAction
deriving Repr

/-- Per-event handling of stream_snapshots (pipeline.py lines 158-176, and
identically lines 138-157 for each item of a list result): while a strict
party lacks ids the event first feeds self-id scoring, then the gate decides
between a direct meter push and the pending list. -/
def handleEvent (reg? : Option NameRegistry) (party? : Option PartyRegistry)
    (pending : List CombatEvent) (pendingStates : List PendingState)
    (e : CombatEvent) : PipeStep :=
  match party? with
  | none => ⟨none, pending, pendingStates, [MeterAction.push e]⟩
  | some pr =>
    let pr1 :=
      if pr.strict && !pr.hasIds then
        PartyRegistry.tryResolveSelfId (pr.observeCombatEvent e) reg?
      else pr
    let dec := pr1.allowsRecord e.source_id reg?
    if dec.1 then ⟨some dec.2, pending, pendingStates, [MeterAction.push e]⟩
    else if dec.2.strict && (!dec.2.hasIds || dec.2.hasUnresolvedNames) then
      ⟨some dec.2, pending ++ [e], pendingStates, []⟩
    else ⟨some dec.2, pending, pendingStates, []⟩

/-- Python list slicing xs[-m:]: keep the last m items. -/
def trimCount {α : Type} (m : Nat) (xs : List α) : List α :=
  if xs.length > m then xs.drop (xs.length - m) else xs

/-- One iteration of the pending-event release loop of
_flush_or_trim_pending (pipeline.py lines 320-326): an allowed event is
merged into history first and pushed only on a merge miss; a disallowed
event is retained only while party names are unresolved. -/
def flushEventStep (reg? : Option NameRegistry) (mergeOracle : CombatEvent → Bool)
    (retain : Bool) (acc : PartyRegistry × List CombatEvent × List MeterAction)
    (item : CombatEvent) : PartyRegistry × List CombatEvent × List MeterAction :=
  let dec := acc.1.allowsRecord item.source_id reg?
  if dec.1 then
    if mergeOracle item then
      (dec.2, acc.2.1, acc.2.2 ++ [MeterAction.mergeAttempt item])
    else
      (dec.2, acc.2.1, acc.2.2 ++ [MeterAction.mergeAttempt item, MeterAction.push item])
  else if retain then (dec.2, acc.2.1 ++ [item], acc.2.2)
  else (dec.2, acc.2.1, acc.2.2)

/-- Pending-event release loop of _flush_or_trim_pending (pipeline.py lines
318-327). -/
def flushEventsLoop (reg? : Option NameRegistry) (mergeOracle : CombatEvent → Bool)
    (retain : Bool) (pr : PartyRegistry) (items : List CombatEvent) :
    PartyRegistry × List CombatEvent × List MeterAction :=
  items.foldl (flushEventStep reg? mergeOracle retain) (pr, [], [])

/-- One iteration of the pending combat-state release loop (pipeline.py
lines 330-337). -/
def flushStateStep (reg? : Option NameRegistry) (retain : Bool)
    (acc : PartyRegistry × List PendingState × List MeterAction)
    (item : PendingState) : PartyRegistry × List PendingState × List MeterAction :=
  let dec := acc.1.allowsRecord item.2.1 reg?
  if dec.1 then
    (dec.2, acc.2.1,
      acc.2.2 ++ [MeterAction.observeState item.2.1 item.2.2.1 item.2.2.2 item.1])
  else if retain then (dec.2, acc.2.1 ++ [item], acc.2.2)
  else (dec.2, acc.2.1, acc.2.2)

/-- Pending combat-state release loop of _flush_or_trim_pending (lines
328-338), over the lexicographically sorted pending states. -/
def flushStatesLoop (reg? : Option NameRegistry) (retain : Bool)
    (pr : PartyRegistry) (items : List PendingState) :
    PartyRegistry × List PendingState × List MeterAction :=
  items.foldl (flushStateStep reg? retain) (pr, [], [])

/-- The _flush_or_trim_pending helper (pipeline.py lines 291-339): age-trim
(only once the cutoff is positive) and count-trim both pending queues, then,
once the party has ids, release what the gate now allows. -/
def flushOrTrimPending (reg? : Option NameRegistry)
    (mergeOracle : CombatEvent → Bool) (now : ℚ) (party? : Option PartyRegistry)
    (pending : List CombatEvent) (pendingStates : List PendingState) : PipeStep :=
  match party? with
  | none => ⟨none, pending, pendingStates, []⟩
  | some pr =>
    if pending = [] ∧ pendingStates = [] then ⟨some pr, pending, pendingStates, []⟩
    else
      let cutoff := now - PENDING_MAX_AGE
      let pending1 :=
        if cutoff > 0 then pending.filter (fun e => e.timestamp ≥ cutoff) else pending
      let states1 :=
        if cutoff > 0 then pendingStates.filter (fun t => t.1 ≥ cutoff) else pendingStates
      let pending2 := trimCount PENDING_MAX_COUNT pending1
      let states2 := trimCount PENDING_MAX_COUNT states1
      if pending2 = [] ∧ states2 = [] then ⟨some pr, pending2, states2, []⟩
      else if pr.hasIds then
        let retain := pr.hasUnresolvedNames
        let evRes := flushEventsLoop reg? mergeOracle retain pr pending2
        let stRes := flushStatesLoop reg? retain evRes.1 (stableSort pendingStateLe states2)
        ⟨some stRes.1, evRes.2.1, stRes.2.1, evRes.2.2 ++ stRes.2.2⟩
      else ⟨some pr, pending2, states2, []⟩

/-! ## Shared lemmas about the dictionary embedding -/

theorem dget?_dset_ne {α : Type} (xs : List (Int × α)) (i k : Int) (v : α)
    (h : k ≠ i) :
    dget? (dset xs i v) k = dget? xs k := by
  induction xs with
  | nil => simp [dget?, dset, Ne.symm h]
  | cons kv rest ih =>
    obtain ⟨a, b⟩ := kv
    by_cases hk : a = i
    · subst hk
      simp [dget?, dset, Ne.symm h]
    · simp [dget?, dset, hk, ih]

theorem dget?_eq_some_mem {α : Type} (xs : List (Int × α)) (k : Int) (v : α)
    (h : dget? xs k = some v) : (k, v) ∈ xs := by
  induction xs with
  | nil => simp [dget?] at h
  | cons kv rest ih =>
    obtain ⟨a, b⟩ := kv
    by_cases hk : a = k
    · subst hk
      simp [dget?] at h
      simp [h]
    · simp [dget?, hk] at h
      simp [ih h]

theorem mem_sinsert (xs : List Int) (x j : Int) :
    j ∈ sinsert xs x ↔ j ∈ xs ∨ j = x := by
  unfold sinsert
  split
  · constructor
    · exact fun h => Or.inl h
    · rintro (h | rfl)
      · exact h
      · assumption
  · simp

/-! ## C7: weak and strong name bindings -/

/-- C7: for the name registry, a weak binding to an id that already holds a
strong binding to a different name leaves the registry unchanged; and
creating a strong binding of (id, name) removes from the active id-to-name
map every weak binding of that name to a different id (ids strongly bound to
the name are not weak bindings and stay). -/
theorem C7_weak_strong_binding_policy (s : NameRegistry) (i : Int) (n : String) :
    ((∃ n0, dget? s.strong_id_names i = some n0 ∧ n0 ≠ n) →
      NameRegistry.recordWeak s i n = s) ∧
    (n ≠ "" → ∀ j, j ≠ i →
      j ∈ (sget? s.weak_name_ids n).getD [] →
      j ∉ (sget? s.strong_name_ids n).getD [] →
      dget? (NameRegistry.record s i n).names j ≠ some n) := by
  constructor
  · rintro ⟨n0, hget, hne⟩
    unfold NameRegistry.recordWeak NameRegistry.store
    by_cases hn : n = ""
    · simp [hn]
    · simp only [hn, if_neg, if_true, if_false]
      unfold NameRegistry.storeWeak
      rw [hget]
      simp [Ne.symm hne, hne]
  · intro hn j hji hweak hstrong hcontra
    unfold NameRegistry.record NameRegistry.store NameRegistry.storeStrong at hcontra
    simp only [hn, if_false, Bool.false_eq_true, if_neg, ite_false] at hcontra
    rw [dget?_dset_ne _ _ _ _ hji] at hcontra
    have hmem := dget?_eq_some_mem _ _ _ hcontra
    have hpred := List.of_mem_filter hmem
    simp only [decide_eq_true_eq] at hpred
    apply hpred
    refine ⟨hweak, ?_, by trivial⟩
    rw [mem_sinsert]
    rintro (h | rfl)
    · exact hstrong h
    · exact hji rfl

/-- Witness for C7 at concrete registries: a weak rebind of id 1 (strongly
named x) to b is dropped, and a strong bind of (1, a) evicts the weak
binding of a to id 2 from the active map. -/
theorem C7_weak_strong_binding_policy_witness :
    NameRegistry.recordWeak { strong_id_names := [(1, "x")] } 1 "b" =
      { strong_id_names := [(1, "x")] } ∧
    dget? (NameRegistry.record
      { names := [(2, "a")], weak_name_ids := [("a", [2])] } 1 "a").names 2 ≠ some "a" :=
  ⟨(C7_weak_strong_binding_policy { strong_id_names := [(1, "x")] } 1 "b").1
      ⟨"x", by decide, by decide⟩,
    (C7_weak_strong_binding_policy
      { names := [(2, "a")], weak_name_ids := [("a", [2])] } 1 "a").2
      (by decide) 2 (by decide) (by decide) (by decide)⟩

/-! ## C3: the party gate -/

/-- C3 counterexample: the claim says allows(source_id) is true iff strict
mode is off OR source_id lies in the union of self_ids and party_ids.  In
the state with strict mode on, party_ids containing 5 and self_ids empty
(reached by a roster name sync before any self id is resolved), the query
allows(5) returns false although 5 is in the union. -/
theorem C3_allows_union_claim_counterexample :
    (PartyRegistry.allowsRecord
      { strict := true, party_ids := [5], self_ids := [] } 5 none).1 = false ∧
    (5 : Int) ∈ ({ strict := true, party_ids := [5], self_ids := [] } : PartyRegistry).party_ids := by
  constructor
  · rfl
  · decide

/-- C3 amended: allows(source_id) returns true iff, in strict mode, self_ids
is nonempty and source_id lies in party_ids or self_ids; in non-strict mode,
membership in party_ids decides whenever party_ids is nonempty, otherwise
the query passes unless party names are known, a name registry is supplied,
and the looked-up name of source_id is not a party name. -/
theorem C3_allows_characterization (s : PartyRegistry) (src : Int)
    (reg? : Option NameRegistry) :
    (s.allowsRecord src reg?).1 = true ↔
      (if s.strict then
        s.self_ids ≠ [] ∧ (src ∈ s.party_ids ∨ src ∈ s.self_ids)
      else if s.party_ids ≠ [] then src ∈ s.party_ids
      else if s.party_names = [] then True
      else
        match reg? with
        | none => True
        | some reg => ∃ name, reg.lookup src = some name ∧ name ∈ s.party_names) := by
  unfold PartyRegistry.allowsRecord PartyRegistry.allowsDecision
  by_cases hs : s.strict
  · simp only [hs, if_true]
    by_cases hself : s.self_ids = []
    · simp [hself]
    · simp [hself]
  · simp only [hs, if_false, Bool.false_eq_true]
    by_cases hparty : s.party_ids = []
    · simp only [hparty, ne_eq, not_true_eq_false, if_false]
      by_cases hnames : s.party_names = []
      · simp [hnames]
      · simp only [hnames, if_neg, ite_false]
        cases reg? with
        | none => simp
        | some reg =>
          cases hl : reg.lookup src with
          | none => simp [hl]
          | some name => simp [hl]
    · simp [hparty]

/-! ## C5: zone change reset -/

theorem updateZoneKey_change (s : PartyRegistry) (p : RawPacket) (zk zk0 : String × Int)
    (hzk : inferZoneKey p = some zk) (hold : s.zone_key = some zk0) (hne : zk ≠ zk0) :
    PartyRegistry.updateZoneKey s p =
      { s with
        zone_key := some zk
        target_ids := []
        recent_target_ids := []
        recent_outbound_ts := []
        target_request_ts := []
        self_candidate_scores := []
        self_candidate_last_ts := []
        self_candidate_link_hits := []
        self_candidate_combat_hits := []
        party_ids := sdiff s.party_ids s.self_ids
        self_ids := []
        primary_self_id := none
        party_roster_candidates := []
        party_roster_self_seen := false
        combat_ids_seen := [] } := by
  unfold PartyRegistry.updateZoneKey
  rw [hzk, hold]
  simp [hne]

/-- C5: when the party registry observes a packet whose zone-port endpoint
differs from the remembered zone key, the per-zone state is cleared: target
buffers (target ids, recent target requests, request times), the four
candidate scoring tables, self_ids, primary_self_id, the roster candidates
and combat_ids_seen, while self_name and its confirmed flag keep their
values. -/
theorem C5_zone_change_clears_per_zone_state (s : PartyRegistry) (p : RawPacket)
    (zk zk0 : String × Int) (hzk : inferZoneKey p = some zk)
    (hold : s.zone_key = some zk0) (hne : zk ≠ zk0) :
    (s.observePacket p).target_ids = [] ∧
    (s.observePacket p).recent_target_ids = [] ∧
    (s.observePacket p).target_request_ts = [] ∧
    (s.observePacket p).self_candidate_scores = [] ∧
    (s.observePacket p).self_candidate_last_ts = [] ∧
    (s.observePacket p).self_candidate_link_hits = [] ∧
    (s.observePacket p).self_candidate_combat_hits = [] ∧
    (s.observePacket p).self_ids = [] ∧
    (s.observePacket p).primary_self_id = none ∧
    (s.observePacket p).party_roster_candidates = [] ∧
    (s.observePacket p).combat_ids_seen = [] ∧
    (s.observePacket p).self_name = s.self_name ∧
    (s.observePacket p).self_name_confirmed = s.self_name_confirmed := by
  have hu := updateZoneKey_change
    { s with last_packet_fingerprint := some (PartyRegistry.fingerprintOf p) } p zk zk0 hzk hold hne
  simp only [PartyRegistry.observePacket, hu]
  by_cases houtb : p.dst_port ∈ ZONE_PORTS ∧ p.src_port ∉ SERVER_PORTS <;>
    simp [houtb, pruneFrontPairs, pruneFrontTriples, PartyRegistry.pruneCandidateScores,
      PartyRegistry.pruneCandidatesAt, dremoveAll]

/-- Witness for C5: a packet from a fresh zone endpoint resets a populated
registry. -/
theorem C5_zone_change_clears_per_zone_state_witness :
    (PartyRegistry.observePacket
      { zone_key := some ("10.0.0.1", 5056), self_ids := [7], primary_self_id := some 7,
        target_ids := [9], combat_ids_seen := [7, 9], self_name := some "Me",
        self_name_confirmed := true }
      { timestamp := 100, src_ip := "10.0.0.2", src_port := 5056, dst_ip := "192.168.0.2",
        dst_port := 40000, payload_len := 32 }).self_ids = [] ∧
    (PartyRegistry.observePacket
      { zone_key := some ("10.0.0.1", 5056), self_ids := [7], primary_self_id := some 7,
        target_ids := [9], combat_ids_seen := [7, 9], self_name := some "Me",
        self_name_confirmed := true }
      { timestamp := 100, src_ip := "10.0.0.2", src_port := 5056, dst_ip := "192.168.0.2",
        dst_port := 40000, payload_len := 32 }).self_name = some "Me" := by
  have h := C5_zone_change_clears_per_zone_state
    { zone_key := some ("10.0.0.1", 5056), self_ids := [7], primary_self_id := some 7,
      target_ids := [9], combat_ids_seen := [7, 9], self_name := some "Me",
      self_name_confirmed := true }
    { timestamp := 100, src_ip := "10.0.0.2", src_port := 5056, dst_ip := "192.168.0.2",
      dst_port := 40000, payload_len := 32 }
    ("10.0.0.2", 5056) ("10.0.0.1", 5056) (by decide) (by decide) (by decide)
  exact ⟨h.2.2.2.2.2.2.2.1, h.2.2.2.2.2.2.2.2.2.2.2.1⟩

/-! ## C9: packet de-duplication -/

theorem updateZoneKey_fingerprint (s : PartyRegistry) (p : RawPacket) :
    (PartyRegistry.updateZoneKey s p).last_packet_fingerprint = s.last_packet_fingerprint := by
  unfold PartyRegistry.updateZoneKey
  cases inferZoneKey p with
  | none => rfl
  | some zk =>
    cases s.zone_key with
    | none => rfl
    | some zk0 => by_cases h : zk = zk0 <;> simp [h]

theorem pruneCandidateScores_fingerprint (s : PartyRegistry) (now? : Option ℚ) :
    (PartyRegistry.pruneCandidateScores s now?).last_packet_fingerprint =
      s.last_packet_fingerprint := by
  rcases now? with _ | now <;>
    rcases h : s.self_candidate_last_ts with _ | ⟨t, ts⟩ <;>
      simp [PartyRegistry.pruneCandidateScores, PartyRegistry.pruneCandidatesAt, h]

theorem observePacket_fingerprint (s : PartyRegistry) (p : RawPacket) :
    (PartyRegistry.observePacket s p).last_packet_fingerprint =
      some (PartyRegistry.fingerprintOf p) := by
  unfold PartyRegistry.observePacket
  by_cases houtb : p.dst_port ∈ ZONE_PORTS ∧ p.src_port ∉ SERVER_PORTS <;>
    simp [houtb, pruneCandidateScores_fingerprint, updateZoneKey_fingerprint]

/-- C9 counterexample: the claim says observe_packet applied twice in a row
to the same packet is a no-op.  The public observe_packet performs no
fingerprint check: an outbound zone-port packet appends its timestamp to the
outbound buffer on both calls, so the second call changes the state. -/
theorem C9_observe_packet_twice_counterexample :
    PartyRegistry.observePacket
      (PartyRegistry.observePacket ({} : PartyRegistry)
        { timestamp := 1, src_ip := "c", src_port := 40000, dst_ip := "s",
          dst_port := 5056, payload_len := 10 })
      { timestamp := 1, src_ip := "c", src_port := 40000, dst_ip := "s",
        dst_port := 5056, payload_len := 10 } ≠
    PartyRegistry.observePacket ({} : PartyRegistry)
      { timestamp := 1, src_ip := "c", src_port := 40000, dst_ip := "s",
        dst_port := 5056, payload_len := 10 } := by
  decide

/-- C9 amended: the fingerprint de-duplication lives in the internal once
variant used while processing messages; observing a packet through
_observe_packet_once twice in a row equals observing it once, for every
state and packet. -/
theorem C9_observe_packet_once_idempotent (s : PartyRegistry) (p : RawPacket) :
    PartyRegistry.observePacketOnce (PartyRegistry.observePacketOnce s p) p =
      PartyRegistry.observePacketOnce s p := by
  unfold PartyRegistry.observePacketOnce
  by_cases h : s.last_packet_fingerprint = some (PartyRegistry.fingerprintOf p)
  · simp [h]
  · simp [h, observePacket_fingerprint]

/-! ## C4: acceptance rule and stability of the primary self id -/

theorem pruneCandidateScores_primary (s : PartyRegistry) (now? : Option ℚ) :
    (PartyRegistry.pruneCandidateScores s now?).primary_self_id = s.primary_self_id := by
  rcases now? with _ | now <;>
    rcases h : s.self_candidate_last_ts with _ | ⟨t, ts⟩ <;>
      simp [PartyRegistry.pruneCandidateScores, PartyRegistry.pruneCandidatesAt, h]

theorem promoteRosterCandidates_primary (s : PartyRegistry) :
    (PartyRegistry.promoteRosterCandidates s).primary_self_id = s.primary_self_id := by
  simp only [PartyRegistry.promoteRosterCandidates]
  repeat' split
  all_goals rfl

theorem acceptSelfIdCandidate_of_none (s : PartyRegistry) (c : Int)
    (h : s.primary_self_id = none) :
    (PartyRegistry.acceptSelfIdCandidate s c).primary_self_id = some c := by
  unfold PartyRegistry.acceptSelfIdCandidate
  rw [h]
  by_cases hc : c ∈ s.party_roster_candidates <;>
    simp [hc, promoteRosterCandidates_primary]

theorem acceptSelfIdCandidate_of_some (s : PartyRegistry) (c pid : Int)
    (h : s.primary_self_id = some pid) :
    (PartyRegistry.acceptSelfIdCandidate s c).primary_self_id = some pid := by
  unfold PartyRegistry.acceptSelfIdCandidate
  rw [h]
  by_cases hc : c = pid
  · subst hc
    by_cases hm : c ∈ s.party_roster_candidates <;>
      simp [hm, promoteRosterCandidates_primary]
  · simp [hc, h]

theorem observePacket_primary (s : PartyRegistry) (p : RawPacket) :
    (s.observePacket p).primary_self_id = s.primary_self_id ∨
      ((∃ zk zk0, inferZoneKey p = some zk ∧ s.zone_key = some zk0 ∧ zk ≠ zk0) ∧
        (s.observePacket p).primary_self_id = none) := by
  by_cases hchange : ∃ zk zk0, inferZoneKey p = some zk ∧ s.zone_key = some zk0 ∧ zk ≠ zk0
  · right
    refine ⟨hchange, ?_⟩
    obtain ⟨zk, zk0, hzk, hold, hne⟩ := hchange
    have hu := updateZoneKey_change
      { s with last_packet_fingerprint := some (PartyRegistry.fingerprintOf p) } p zk zk0 hzk hold hne
    simp only [PartyRegistry.observePacket, hu]
    by_cases houtb : p.dst_port ∈ ZONE_PORTS ∧ p.src_port ∉ SERVER_PORTS <;>
      simp [houtb, pruneCandidateScores_primary]
  · left
    have hu : (PartyRegistry.updateZoneKey
        { s with last_packet_fingerprint := some (PartyRegistry.fingerprintOf p) } p).primary_self_id
        = s.primary_self_id := by
      unfold PartyRegistry.updateZoneKey
      cases hzk : inferZoneKey p with
      | none => rfl
      | some zk =>
        cases hold : s.zone_key with
        | none => rfl
        | some zk0 =>
          by_cases hne : zk = zk0
          · simp [hne]
          · exact absurd ⟨zk, zk0, hzk, hold, hne⟩ hchange
    simp only [PartyRegistry.observePacket]
    by_cases houtb : p.dst_port ∈ ZONE_PORTS ∧ p.src_port ∉ SERVER_PORTS <;>
      simp [houtb, pruneCandidateScores_primary, hu]

/-- C4: once the candidate table is pruned and nonempty and the
confirmed-self-name short circuit does not fire, try_resolve_self_id accepts
the highest-scoring candidate exactly when its score reaches 1.0, it leads
the runner-up by at least 1.0, and its combat-hit count is at least 1; and a
set primary_self_id survives every registry operation except the zone-change
reset. -/
theorem C4_primary_self_id_acceptance_and_stability (s : PartyRegistry)
    (reg? : Option NameRegistry) :
    (s.primary_self_id = none →
      ∀ hd tl,
        (PartyRegistry.pruneCandidateScores s none).self_candidate_scores = hd :: tl →
        PartyRegistry.selfNameShortCircuitB (PartyRegistry.pruneCandidateScores s none) reg? = false →
        ((s.tryResolveSelfId reg?).primary_self_id = some (PartyRegistry.maxScoreEntry hd tl).1 ↔
          SELF_ID_MIN_SCORE ≤ (PartyRegistry.maxScoreEntry hd tl).2 ∧
          SELF_ID_MIN_SCORE_GAP ≤ (PartyRegistry.maxScoreEntry hd tl).2 -
            PartyRegistry.secondScore (hd :: tl) (PartyRegistry.maxScoreEntry hd tl).1 ∧
          1 ≤ (dget? (PartyRegistry.pruneCandidateScores s none).self_candidate_combat_hits
            (PartyRegistry.maxScoreEntry hd tl).1).getD 0)) ∧
    (∀ pid, s.primary_self_id = some pid →
      (s.tryResolveSelfId reg?).primary_self_id = some pid ∧
      (∀ e : CombatEvent, (s.observeCombatEvent e).primary_self_id = some pid) ∧
      (∀ c : Int, (s.acceptSelfIdCandidate c).primary_self_id = some pid) ∧
      (∀ src : Int, (s.allowsRecord src reg?).2.primary_self_id = some pid) ∧
      (∀ p : RawPacket,
        (s.observePacket p).primary_self_id = some pid ∨
          ((∃ zk zk0, inferZoneKey p = some zk ∧ s.zone_key = some zk0 ∧ zk ≠ zk0) ∧
            (s.observePacket p).primary_self_id = none))) := by
  constructor
  · intro hnone hd tl hcons hsc
    have hprim1 : (PartyRegistry.pruneCandidateScores s none).primary_self_id = none := by
      rw [pruneCandidateScores_primary, hnone]
    unfold PartyRegistry.tryResolveSelfId
    simp only [hnone, ne_eq, not_true_eq_false, Bool.false_eq_true, if_false, ite_false,
      reduceIte, hcons, hsc]
    by_cases hcond : (PartyRegistry.maxScoreEntry hd tl).2 ≥ SELF_ID_MIN_SCORE ∧
        (PartyRegistry.maxScoreEntry hd tl).2 -
          PartyRegistry.secondScore (hd :: tl) (PartyRegistry.maxScoreEntry hd tl).1 ≥
          SELF_ID_MIN_SCORE_GAP
    · rw [if_pos hcond]
      by_cases hhits : (dget? (PartyRegistry.pruneCandidateScores s none).self_candidate_combat_hits
          (PartyRegistry.maxScoreEntry hd tl).1).getD 0 ≤ 0
      · rw [if_pos hhits, hprim1]
        constructor
        · intro h
          exact absurd h (by simp)
        · rintro ⟨-, -, h1⟩
          omega
      · rw [if_neg hhits, acceptSelfIdCandidate_of_none _ _ hprim1]
        constructor
        · intro _
          exact ⟨hcond.1, hcond.2, by omega⟩
        · intro _
          rfl
    · rw [if_neg hcond, hprim1]
      constructor
      · intro h
        exact absurd h (by simp)
      · rintro ⟨h1, h2, -⟩
        exact absurd ⟨h1, h2⟩ hcond
  · intro pid hpid
    refine ⟨?_, ?_, ?_, ?_, ?_⟩
    · unfold PartyRegistry.tryResolveSelfId
      simp [hpid]
    · intro e
      unfold PartyRegistry.observeCombatEvent
      simp [hpid]
    · intro c
      exact acceptSelfIdCandidate_of_some s c pid hpid
    · intro src
      exact hpid
    · intro p
      rcases observePacket_primary s p with h | ⟨hz, hn⟩
      · exact Or.inl (h.trans hpid)
      · exact Or.inr ⟨hz, hn⟩

/-- Witness for C4: a lone candidate with score 2 and one combat hit is
accepted as id 7, and a registry that already holds primary id 7 keeps it
through another acceptance attempt. -/
theorem C4_primary_self_id_acceptance_and_stability_witness :
    (PartyRegistry.tryResolveSelfId
      { self_candidate_scores := [(7, 2)], self_candidate_last_ts := [(7, 0)],
        self_candidate_combat_hits := [(7, 1)] } none).primary_self_id = some 7 ∧
    (PartyRegistry.acceptSelfIdCandidate { primary_self_id := some 7 } 9).primary_self_id =
      some 7 := by
  constructor
  · exact ((C4_primary_self_id_acceptance_and_stability
      { self_candidate_scores := [(7, 2)], self_candidate_last_ts := [(7, 0)],
        self_candidate_combat_hits := [(7, 1)] } none).1 rfl (7, 2) []
      (by decide) (by decide)).mpr ⟨by decide, by decide, by decide⟩
  · exact ((C4_primary_self_id_acceptance_and_stability
      { primary_self_id := some 7 } none).2 7 rfl).2.2.1 9

/-! ## C1: merge-before-push discipline -/

theorem mergeBeforePushOk_append (xs ys : List MeterAction) (prev : Option CombatEvent)
    (hx : mergeBeforePushOk prev xs = true)
    (hy : ∀ q, mergeBeforePushOk q ys = true) :
    mergeBeforePushOk prev (xs ++ ys) = true := by
  induction xs generalizing prev with
  | nil => exact hy prev
  | cons a rest ih =>
    cases a with
    | push e =>
      simp only [mergeBeforePushOk, List.cons_append, Bool.and_eq_true] at hx ⊢
      exact ⟨hx.1, ih none hx.2⟩
    | mergeAttempt e =>
      simp only [mergeBeforePushOk, List.cons_append] at hx ⊢
      exact ih _ hx
    | observeState i a b t =>
      simp only [mergeBeforePushOk, List.cons_append] at hx ⊢
      exact ih _ hx

theorem foldl_flushEventStep_ok (reg? : Option NameRegistry)
    (oracle : CombatEvent → Bool) (retain : Bool) (items : List CombatEvent) :
    ∀ init : PartyRegistry × List CombatEvent × List MeterAction,
      mergeBeforePushOk none init.2.2 = true →
      mergeBeforePushOk none
        (items.foldl (flushEventStep reg? oracle retain) init).2.2 = true := by
  induction items with
  | nil => exact fun init h => h
  | cons item rest ih =>
    intro init h
    rw [List.foldl_cons]
    apply ih
    unfold flushEventStep
    by_cases hdec : (init.1.allowsRecord item.source_id reg?).1 = true
    · simp only [hdec, if_true, reduceIte]
      by_cases hor : oracle item = true
      · simp only [hor, if_true, reduceIte]
        exact mergeBeforePushOk_append _ _ _ h (fun q => by simp [mergeBeforePushOk])
      · simp only [hor, if_false, Bool.false_eq_true, reduceIte]
        exact mergeBeforePushOk_append _ _ _ h (fun q => by simp [mergeBeforePushOk])
    · simp only [hdec, if_false, Bool.false_eq_true, reduceIte]
      by_cases hr : retain = true <;> simp [hr, h]

theorem foldl_flushStateStep_ok (reg? : Option NameRegistry) (retain : Bool)
    (items : List PendingState) :
    ∀ init : PartyRegistry × List PendingState × List MeterAction,
      (∀ q, mergeBeforePushOk q init.2.2 = true) →
      ∀ q, mergeBeforePushOk q
        (items.foldl (flushStateStep reg? retain) init).2.2 = true := by
  induction items with
  | nil => exact fun init h => h
  | cons item rest ih =>
    intro init h
    rw [List.foldl_cons]
    apply ih
    intro q
    unfold flushStateStep
    by_cases hdec : (init.1.allowsRecord item.2.1 reg?).1 = true
    · simp only [hdec, if_true, reduceIte]
      exact mergeBeforePushOk_append _ _ _ (h q) (fun r => by simp [mergeBeforePushOk])
    · simp only [hdec, if_false, Bool.false_eq_true, reduceIte]
      by_cases hr : retain = true <;> simp [hr, h q]

theorem flushEventsLoop_ok (reg? : Option NameRegistry) (oracle : CombatEvent → Bool)
    (retain : Bool) (pr : PartyRegistry) (items : List CombatEvent) :
    mergeBeforePushOk none (flushEventsLoop reg? oracle retain pr items).2.2 = true :=
  foldl_flushEventStep_ok reg? oracle retain items (pr, [], []) rfl

theorem flushStatesLoop_ok (reg? : Option NameRegistry) (retain : Bool)
    (pr : PartyRegistry) (items : List PendingState) (q : Option CombatEvent) :
    mergeBeforePushOk q (flushStatesLoop reg? retain pr items).2.2 = true :=
  foldl_flushStateStep_ok reg? retain items (pr, [], []) (fun _ => rfl) q

/-- C1 counterexample: the claim says every event whose source passes the
party gate is first offered to merge_event_into_history and pushed only on a
merge miss.  A fresh mapped event from an allowed source (id 7 with self_ids
and party_ids both holding 7) is pushed by stream_snapshots with no merge
attempt in the trace. -/
theorem C1_fresh_event_skips_merge_counterexample :
    (handleEvent none (some { strict := true, self_ids := [7], party_ids := [7] }) [] []
      { timestamp := 5, source_id := 7, target_id := 9, kind := "damage",
        amount := 100 }).actions =
      [MeterAction.push
        { timestamp := 5, source_id := 7, target_id := 9, kind := "damage", amount := 100 }] ∧
    mergeBeforePushOk none
      (handleEvent none (some { strict := true, self_ids := [7], party_ids := [7] }) [] []
        { timestamp := 5, source_id := 7, target_id := 9, kind := "damage",
          amount := 100 }).actions = false := by
  decide

/-- C1 amended: the merge-before-push order holds for every event released
from the pending list by _flush_or_trim_pending; an event that arrives fresh
from the mapper and passes the gate is pushed into the live meter directly,
with no merge attempt (the per-event handler only ever emits a lone push or
nothing). -/
theorem C1_merge_before_push_on_flush_only (reg? : Option NameRegistry)
    (oracle : CombatEvent → Bool) (now : ℚ) (party? : Option PartyRegistry)
    (pending : List CombatEvent) (ps : List PendingState) (e : CombatEvent) :
    mergeBeforePushOk none
      (flushOrTrimPending reg? oracle now party? pending ps).actions = true ∧
    ((handleEvent reg? party? pending ps e).actions = [MeterAction.push e] ∨
      (handleEvent reg? party? pending ps e).actions = []) := by
  constructor
  · simp only [flushOrTrimPending]
    cases party? with
    | none => rfl
    | some pr =>
      repeat' split
      all_goals
        first
        | rfl
        | exact mergeBeforePushOk_append _ _ _
            (flushEventsLoop_ok _ _ _ _ _) (flushStatesLoop_ok _ _ _ _)
  · simp only [handleEvent]
    cases party? with
    | none => left; rfl
    | some pr =>
      repeat' split
      all_goals first | (left; rfl) | (right; rfl)

/-! ## C2: the strict-mode gate invariant -/

theorem pruneCandidateScores_strict (s : PartyRegistry) (now? : Option ℚ) :
    (PartyRegistry.pruneCandidateScores s now?).strict = s.strict := by
  rcases now? with _ | now <;>
    rcases h : s.self_candidate_last_ts with _ | ⟨t, ts⟩ <;>
      simp [PartyRegistry.pruneCandidateScores, PartyRegistry.pruneCandidatesAt, h]

theorem pruneCandidateScores_self_ids (s : PartyRegistry) (now? : Option ℚ) :
    (PartyRegistry.pruneCandidateScores s now?).self_ids = s.self_ids := by
  rcases now? with _ | now <;>
    rcases h : s.self_candidate_last_ts with _ | ⟨t, ts⟩ <;>
      simp [PartyRegistry.pruneCandidateScores, PartyRegistry.pruneCandidatesAt, h]

theorem promoteRosterCandidates_strict (s : PartyRegistry) :
    (PartyRegistry.promoteRosterCandidates s).strict = s.strict := by
  simp only [PartyRegistry.promoteRosterCandidates]
  repeat' split
  all_goals rfl

theorem acceptSelfIdCandidate_strict (s : PartyRegistry) (c : Int) :
    (PartyRegistry.acceptSelfIdCandidate s c).strict = s.strict := by
  simp only [PartyRegistry.acceptSelfIdCandidate]
  repeat' split
  all_goals simp [promoteRosterCandidates_strict]

theorem tryResolveSelfId_strict (s : PartyRegistry) (reg? : Option NameRegistry) :
    (s.tryResolveSelfId reg?).strict = s.strict := by
  simp only [PartyRegistry.tryResolveSelfId]
  repeat' split
  all_goals simp [acceptSelfIdCandidate_strict, pruneCandidateScores_strict]

theorem observeCombatEvent_strict (s : PartyRegistry) (e : CombatEvent) :
    (s.observeCombatEvent e).strict = s.strict := by
  simp only [PartyRegistry.observeCombatEvent]
  repeat' split
  all_goals rfl

theorem allowsDecision_strict_empty (s : PartyRegistry) (src : Int)
    (reg? : Option NameRegistry) (h1 : s.strict = true) (h2 : s.self_ids = []) :
    PartyRegistry.allowsDecision s src reg? = false := by
  unfold PartyRegistry.allowsDecision
  simp [h1, h2]

theorem trimCount_sublist {α : Type} (m : Nat) (xs : List α) :
    (trimCount m xs).Sublist xs := by
  unfold trimCount
  split
  · exact List.drop_sublist _ _
  · exact List.Sublist.refl _

/-- C2: while the party registry is strict and its self_ids set is empty at
the moment the gate decides, no combat event reaches the meter: the
per-event handler emits no meter action and appends the event to the
pending list, and the pending flush emits no meter action and only trims
the pending list. -/
theorem C2_strict_gate_blocks_meter (reg? : Option NameRegistry)
    (oracle : CombatEvent → Bool) (now : ℚ) (pr : PartyRegistry)
    (pending : List CombatEvent) (ps : List PendingState) (e : CombatEvent) :
    (pr.strict = true →
      ∀ pr2, (handleEvent reg? (some pr) pending ps e).party = some pr2 →
        pr2.self_ids = [] →
        (handleEvent reg? (some pr) pending ps e).actions = [] ∧
        (handleEvent reg? (some pr) pending ps e).pending = pending ++ [e]) ∧
    (pr.strict = true → pr.self_ids = [] →
      (flushOrTrimPending reg? oracle now (some pr) pending ps).actions = [] ∧
      (flushOrTrimPending reg? oracle now (some pr) pending ps).pending.Sublist pending) := by
  constructor
  · intro hstrict pr2 hparty hempty
    have hpr1strict : ∀ q : PartyRegistry,
        ((if pr.strict && !pr.hasIds then
            PartyRegistry.tryResolveSelfId (pr.observeCombatEvent e) reg?
          else pr)).strict = pr.strict := by
      intro q
      split
      · rw [tryResolveSelfId_strict, observeCombatEvent_strict]
      · rfl
    -- the gate decision is false in the state the handler consults
    unfold handleEvent at hparty ⊢
    simp only at hparty ⊢
    set pr1 := (if pr.strict && !pr.hasIds then
        PartyRegistry.tryResolveSelfId (pr.observeCombatEvent e) reg?
      else pr) with hpr1
    have hdec : (pr1.allowsRecord e.source_id reg?).1 = false := by
      apply allowsDecision_strict_empty
      · show ({ pr1 with combat_ids_seen := sinsert pr1.combat_ids_seen e.source_id }).strict = true
        have := hpr1strict pr
        simp only [← hpr1] at this
        simpa [this] using hstrict
      · show ({ pr1 with combat_ids_seen := sinsert pr1.combat_ids_seen e.source_id }).self_ids = []
        -- the handler's reported party is the gate state, so self_ids agree
        by_cases hcase : (pr1.allowsRecord e.source_id reg?).1 = true
        · simp only [hcase, if_true, reduceIte] at hparty
          cases hparty
          exact hempty
        · simp only [hcase, if_false, Bool.false_eq_true, reduceIte] at hparty
          split at hparty <;> (cases hparty; exact hempty)
    simp only [hdec, if_false, Bool.false_eq_true, reduceIte]
    have hstrict2 : (pr1.allowsRecord e.source_id reg?).2.strict = true := by
      show ({ pr1 with combat_ids_seen := sinsert pr1.combat_ids_seen e.source_id }).strict = true
      have := hpr1strict pr
      simp only [← hpr1] at this
      simpa [this] using hstrict
    have hids2 : (pr1.allowsRecord e.source_id reg?).2.hasIds = false := by
      have hself : (pr1.allowsRecord e.source_id reg?).2.self_ids = [] := by
        by_cases hcase : (pr1.allowsRecord e.source_id reg?).1 = true
        · rw [hdec] at hcase
          simp at hcase
        · simp only [hcase, if_false, Bool.false_eq_true, reduceIte] at hparty
          split at hparty <;> (cases hparty; exact hempty)
      unfold PartyRegistry.hasIds
      simp [hstrict2, hself]
    simp [hstrict2, hids2]
  · intro hstrict hempty
    have hids : pr.hasIds = false := by
      unfold PartyRegistry.hasIds
      simp [hstrict, hempty]
    simp only [flushOrTrimPending]
    repeat' split
    all_goals first
      | exact ⟨rfl, List.Sublist.refl _⟩
      | exact ⟨rfl, (trimCount_sublist _ _).trans (List.filter_sublist _)⟩
      | exact ⟨rfl, trimCount_sublist _ _⟩
      | simp_all

/-- Witness for C2: a fresh strict registry with no self ids neither pushes
a damage event nor releases it from the pending list. -/
theorem C2_strict_gate_blocks_meter_witness :
    (handleEvent none (some ({} : PartyRegistry)) [] []
      (CombatEvent.mk 0 1 2 "damage" 3)).actions = [] ∧
    (flushOrTrimPending none (fun _ => false) 0 (some ({} : PartyRegistry))
      [CombatEvent.mk 0 1 2 "damage" 3] []).actions = [] := by
  constructor
  · exact ((C2_strict_gate_blocks_meter none (fun _ => false) 0 {} [] []
      (CombatEvent.mk 0 1 2 "damage" 3)).1
      rfl { combat_ids_seen := [1] } (by decide) (by decide)).1
  · exact ((C2_strict_gate_blocks_meter none (fun _ => false) 0 {}
      [CombatEvent.mk 0 1 2 "damage" 3] []
      (CombatEvent.mk 0 1 2 "damage" 3)).2
      rfl rfl).1

/-! ## C8: bounded memory -/

theorem trimCount_length_le {α : Type} (m : Nat) (xs : List α) :
    (trimCount m xs).length ≤ m := by
  unfold trimCount
  split
  · simp only [List.length_drop]
    omega
  · omega

theorem pushMax_length_le {α : Type} (m : Nat) (xs : List α) (x : α)
    (h : xs.length ≤ m) : (pushMax m xs x).length ≤ m := by
  simp only [pushMax]
  split
  · simp only [List.length_drop]
    omega
  · simp_all

theorem sget?_sset_self {α : Type} (xs : List (String × α)) (k : String) (v : α) :
    sget? (sset xs k v) k = some v := by
  induction xs with
  | nil => simp [sget?, sset]
  | cons kv rest ih =>
    obtain ⟨a, b⟩ := kv
    by_cases hk : a = k
    · subst hk
      simp [sget?, sset]
    · simp [sget?, sset, hk, ih]

theorem sget?_sset_ne {α : Type} (xs : List (String × α)) (k j : String) (v : α)
    (h : j ≠ k) : sget? (sset xs k v) j = sget? xs j := by
  induction xs with
  | nil => simp [sget?, sset, Ne.symm h]
  | cons kv rest ih =>
    obtain ⟨a, b⟩ := kv
    by_cases hk : a = k
    · subst hk
      simp [sget?, sset, Ne.symm h]
    · simp [sget?, sset, hk, ih]

theorem foldl_flushEventStep_rem_sublist (reg? : Option NameRegistry)
    (oracle : CombatEvent → Bool) (retain : Bool) (items : List CombatEvent) :
    ∀ init : PartyRegistry × List CombatEvent × List MeterAction,
      (items.foldl (flushEventStep reg? oracle retain) init).2.1.Sublist
        (init.2.1 ++ items) := by
  induction items with
  | nil => intro init; simp
  | cons item rest ih =>
    intro init
    rw [List.foldl_cons]
    have hstep : (flushEventStep reg? oracle retain init item).2.1 = init.2.1 ∨
        (flushEventStep reg? oracle retain init item).2.1 = init.2.1 ++ [item] := by
      simp only [flushEventStep]
      repeat' split
      all_goals simp
    have := ih (flushEventStep reg? oracle retain init item)
    rcases hstep with h | h
    · rw [h] at this
      exact this.trans ((List.sublist_cons_self item rest).append_left init.2.1)
    · rw [h] at this
      simpa using this

theorem flushOrTrimPending_pending_sublist (reg? : Option NameRegistry)
    (oracle : CombatEvent → Bool) (now : ℚ) (pr : PartyRegistry)
    (pending : List CombatEvent) (ps : List PendingState) :
    (flushOrTrimPending reg? oracle now (some pr) pending ps).pending.Sublist
      (trimCount PENDING_MAX_COUNT
        (if now - PENDING_MAX_AGE > 0 then
          pending.filter (fun ev => ev.timestamp ≥ now - PENDING_MAX_AGE)
        else pending)) ∨
    ((flushOrTrimPending reg? oracle now (some pr) pending ps).pending = pending ∧
      pending = []) := by
  simp only [flushOrTrimPending]
  split
  · rename_i h
    right
    exact ⟨rfl, h.1⟩
  · left
    repeat' split
    all_goals first
      | exact List.Sublist.refl _
      | simpa using foldl_flushEventStep_rem_sublist _ _ _ _ _

/-- C8: after a pending flush the pending-event list holds at most 2000
events, all with timestamps within 120 seconds of now (given the event
timestamps are non-negative, as packet capture timestamps are); a session
end keeps every per-mode history within history_limit; and the rolling
window retains only events within window_seconds of the clock it last
saw. -/
theorem C8_bounded_memory (reg? : Option NameRegistry) (oracle : CombatEvent → Bool)
    (now : ℚ) (pr : PartyRegistry) (pending : List CombatEvent) (ps : List PendingState)
    (sm : SessionMeter) (ts : ℚ) (reason : String) (labelOverride : Option String)
    (rm : RollingMeter) (e : CombatEvent) :
    ((∀ ev ∈ pending, 0 ≤ ev.timestamp) →
      (flushOrTrimPending reg? oracle now (some pr) pending ps).pending.length ≤
        PENDING_MAX_COUNT ∧
      ∀ ev ∈ (flushOrTrimPending reg? oracle now (some pr) pending ps).pending,
        now - PENDING_MAX_AGE ≤ ev.timestamp) ∧
    ((∀ m hist, sget? sm.history m = some hist → hist.length ≤ sm.history_limit) →
      ∀ m hist, sget? (sm.endSession ts reason labelOverride).history m = some hist →
        hist.length ≤ sm.history_limit) ∧
    (∀ ev ∈ (rm.touch now).events, now - rm.window_seconds ≤ ev.1) ∧
    (∀ ev ∈ (rm.push e).events, e.timestamp - rm.window_seconds ≤ ev.1) := by
  refine ⟨?_, ?_, ?_, ?_⟩
  · intro hpos
    rcases flushOrTrimPending_pending_sublist reg? oracle now pr pending ps with
      hsub | ⟨heq, hnil⟩
    · constructor
      · exact hsub.length_le.trans (trimCount_length_le _ _)
      · intro ev hev
        have hmem2 := (trimCount_sublist _ _).subset (hsub.subset hev)
        by_cases hc : now - PENDING_MAX_AGE > 0
        · rw [if_pos hc] at hmem2
          have := List.of_mem_filter hmem2
          simpa [ge_iff_le] using this
        · rw [if_neg hc] at hmem2
          have h0 := hpos ev hmem2
          have h1 : now - PENDING_MAX_AGE ≤ 0 := le_of_not_lt hc
          linarith
    · rw [heq, hnil]
      exact ⟨by simp, by intro ev hev; simp at hev⟩
  · intro hh m hist hget
    simp only [SessionMeter.endSession] at hget
    split at hget
    · exact hh m hist hget
    · split at hget
      · exact hh m hist hget
      · by_cases hm : m = sm.mode
        · subst hm
          rw [sget?_sset_self] at hget
          cases hget
          apply pushMax_length_le
          cases hh0 : sget? sm.history sm.mode with
          | none => simp [hh0]
          | some h0 => simpa [hh0] using hh sm.mode h0 hh0
        · rw [sget?_sset_ne _ _ _ _ hm] at hget
          exact hh m hist hget
  · intro ev hev
    have := List.of_mem_filter hev
    simpa [ge_iff_le] using this
  · intro ev hev
    have := List.of_mem_filter hev
    simpa [ge_iff_le] using this

/-- Witness for C8 at a concrete flush, session end and rolling meter. -/
theorem C8_bounded_memory_witness :
    (flushOrTrimPending none (fun _ => false) 200 (some ({} : PartyRegistry))
      [CombatEvent.mk 130 1 2 "damage" 3] []).pending.length ≤ PENDING_MAX_COUNT ∧
    ([] : List SessionSummary).length ≤ ({} : SessionMeter).history_limit ∧
    ((200 : ℚ) - ({ events := [(195, 1, "damage", 10)] } : RollingMeter).window_seconds ≤ 195) ∧
    ((CombatEvent.mk 200 1 2 "damage" 3).timestamp -
      ({ events := [(195, 1, "damage", 10)] } : RollingMeter).window_seconds ≤ 200) := by
  have h := C8_bounded_memory none (fun _ => false) 200 {}
    [CombatEvent.mk 130 1 2 "damage" 3] [] {} 5 "r" none
    { events := [(195, 1, "damage", 10)] } (CombatEvent.mk 200 1 2 "damage" 3)
  refine ⟨(h.1 (by decide)).1, ?_, ?_, ?_⟩
  · exact h.2.1
      (fun m hist hm => by
        simp only [sget?] at hm
        split_ifs at hm <;> simp_all) "battle" [] (by decide)
  · exact h.2.2.1 (195, 1, "damage", 10) (by decide)
  · exact h.2.2.2 (200, 1, "damage", 3) (by decide)

/-! ## C6: the qualifying-event rule for battle keepalive -/

/-- C6 counterexample: the claim ties the filtering of self-heals to a
combat-state signal observed for the current session.  The flag
_saw_combat_state is never cleared at session end: after a first session
sees a combat-state signal and closes, a new session opened by a self-heal
still filters it, so last_combat_event_ts stays none although no
combat-state signal has arrived during the new session. -/
theorem C6_saw_combat_state_persists_counterexample :
    (((((({} : SessionMeter).push (CombatEvent.mk 1 7 9 "damage" 10)).observeCombatState
        7 true false 2).observeCombatState 7 false false 3).observePacketM
        (RawPacket.mk 4 "s" 5056 "c" 40000 10)).active = false) ∧
    (((((({} : SessionMeter).push (CombatEvent.mk 1 7 9 "damage" 10)).observeCombatState
        7 true false 2).observeCombatState 7 false false 3).observePacketM
        (RawPacket.mk 4 "s" 5056 "c" 40000 10)).saw_combat_state = true) ∧
    ((((((({} : SessionMeter).push (CombatEvent.mk 1 7 9 "damage" 10)).observeCombatState
        7 true false 2).observeCombatState 7 false false 3).observePacketM
        (RawPacket.mk 4 "s" 5056 "c" 40000 10)).push
        (CombatEvent.mk 5 7 7 "heal" 10)).last_combat_event_ts = none) := by
  refine ⟨rfl, rfl, rfl⟩

/-- C6 amended: push advances last_combat_event_ts for damage events and
cross-target heals only once the meter has seen any combat-state signal
since the mode was last set (the flag is not cleared at session end); while
the flag is unset every pushed event advances it.  The baseline is the
running value for an active session and none when the push opens a new
session. -/
theorem C6_qualifying_event_rule (s : SessionMeter) (e : CombatEvent)
    (hmode : ¬(s.mode = "manual" ∧ s.manual_active = false)) :
    (s.saw_combat_state = true →
      (¬(e.kind = "damage" ∨ (e.kind = "heal" ∧ e.source_id ≠ e.target_id)) →
        (s.push e).last_combat_event_ts =
          (if s.active then s.last_combat_event_ts else none)) ∧
      ((e.kind = "damage" ∨ (e.kind = "heal" ∧ e.source_id ≠ e.target_id)) →
        (s.push e).last_combat_event_ts =
          bumpTs (if s.active then s.last_combat_event_ts else none) e.timestamp)) ∧
    (s.saw_combat_state = false →
      (s.push e).last_combat_event_ts =
        bumpTs (if s.active then s.last_combat_event_ts else none) e.timestamp) := by
  constructor
  · intro hsaw
    constructor
    · intro hq
      simp only [SessionMeter.push, if_neg hmode]
      by_cases ha : s.active = true
      · cases hce : s.combat_end_ts with
        | none => simp [ha, hce, hsaw, hq, hmode]
        | some c =>
          by_cases hg : e.timestamp - c > COMBAT_END_GRACE_SECONDS <;>
            simp [ha, hce, hsaw, hq, hg, hmode]
      · simp [ha, SessionMeter.startSession, hsaw, hq, hmode]
    · intro hq
      simp only [SessionMeter.push, if_neg hmode]
      by_cases ha : s.active = true
      · cases hce : s.combat_end_ts with
        | none => simp [ha, hce, hsaw, hq, hmode]
        | some c =>
          by_cases hg : e.timestamp - c > COMBAT_END_GRACE_SECONDS <;>
            simp [ha, hce, hsaw, hq, hg, hmode]
      · simp [ha, SessionMeter.startSession, hsaw, hq, bumpTs, hmode]
  · intro hsaw
    simp only [SessionMeter.push, if_neg hmode]
    by_cases ha : s.active = true
    · cases hce : s.combat_end_ts with
      | none => simp [ha, hce, hsaw, hmode]
      | some c =>
        by_cases hg : e.timestamp - c > COMBAT_END_GRACE_SECONDS <;>
          simp [ha, hce, hsaw, hg, hmode]
    · simp [ha, SessionMeter.startSession, hsaw, bumpTs, hmode]

/-- Witness for C6 at a concrete meter: with the flag set a self-heal leaves
the keepalive clock at its baseline, and with the flag unset the same event
advances it. -/
theorem C6_qualifying_event_rule_witness :
    (({ active := true, saw_combat_state := true, last_combat_event_ts := some 1 } :
        SessionMeter).push (CombatEvent.mk 5 7 7 "heal" 10)).last_combat_event_ts =
      (if ({ active := true, saw_combat_state := true, last_combat_event_ts := some 1 } :
        SessionMeter).active then some 1 else none) ∧
    (({ active := true, saw_combat_state := false, last_combat_event_ts := some 1 } :
        SessionMeter).push (CombatEvent.mk 5 7 7 "heal" 10)).last_combat_event_ts =
      bumpTs (if ({ active := true, saw_combat_state := false, last_combat_event_ts := some 1 } :
        SessionMeter).active then some 1 else none) 5 := by
  constructor
  · exact ((C6_qualifying_event_rule
      { active := true, saw_combat_state := true, last_combat_event_ts := some 1 }
      (CombatEvent.mk 5 7 7 "heal" 10) (by decide)).1 rfl).1 (by decide)
  · exact (C6_qualifying_event_rule
      { active := true, saw_combat_state := false, last_combat_event_ts := some 1 }
      (CombatEvent.mk 5 7 7 "heal" 10) (by decide)).2 rfl

/-! ## C10: an empty session leaves the history untouched -/

/-- C10: ending an active session whose rolling meter reports no per-source
totals appends nothing to the per-mode history (the history map is exactly
unchanged) while the meter still deactivates and clears session_start and
last_event_ts. -/
theorem C10_empty_session_end_frame (s : SessionMeter) (ts : ℚ) (reason : String)
    (lo : Option String) (hactive : s.active = true)
    (hempty : (s.meter.snapshot ts).totals = []) :
    (s.endSession ts reason lo).history = s.history ∧
    (s.endSession ts reason lo).active = false ∧
    (s.endSession ts reason lo).session_start = none ∧
    (s.endSession ts reason lo).last_event_ts = none := by
  simp only [SessionMeter.endSession, hactive]
  have hentries : buildEntries (s.meter.snapshot ts) (max (ts - s.session_start.getD ts) 0)
      s.name_lookup = [] := by
    simp [buildEntries, hempty, buildEntriesFromGrouped, stableSort]
  simp [hentries]

/-- Witness for C10: an active meter with an empty rolling meter ends its
session without touching the history. -/
theorem C10_empty_session_end_frame_witness :
    (({ active := true, session_start := some 1 } : SessionMeter).endSession 5 "idle"
      none).history = ({ active := true, session_start := some 1 } : SessionMeter).history ∧
    (({ active := true, session_start := some 1 } : SessionMeter).endSession 5 "idle"
      none).active = false := by
  have h := C10_empty_session_end_frame
    { active := true, session_start := some 1 } 5 "idle" none rfl rfl
  exact ⟨h.1, h.2.1⟩

end AlbionDps
